import Mathlib

/-!
Verification of the scout state-transition engine.

This file gives a shallow embedding of the two source units of the
repository:

* `src/main.rs` — the sandboxed execution host (`Runtime`, `invoke_index`,
  `execute_code`, `process_shard_block`);
* `scripts/bazaar_partials/src/lib.rs` — the "Bazaar" state-transition
  driver (`process_block`).

The wasm interpreter (wasmi) is external to the repository: guest modules
are modelled as a decoded `GuestProgram` (a sequence of host calls and
self-memory writes), with the decoder an explicit parameter.  The partial
Merkle tree engine (the `merkle_partial` crate) is not part of the
repository source either; it is modelled from the spec (section 4.1/4.2),
as marked on each of its definitions.

Rust panics (`unwrap`, `expect`, `assert_eq!`, `unimplemented!`, slice
index panics) are modelled by explicit `panic` outcomes, so that theorems
can distinguish a panic from a typed error or a wasm trap.
-/

namespace Scout

/-- A byte, modelled as a natural number (values used are < 256). -/
abbrev Byte := Nat

/-- A byte string. -/
abbrev Bytes := List Nat

/-- Fixed 32-byte value, as in `types::Bytes32` of the source. -/
structure Bytes32 where
  bytes : Bytes
deriving DecidableEq

/-- The `Default` value of `Bytes32`: 32 zero bytes. -/
def Bytes32.default : Bytes32 := ⟨List.replicate 32 0⟩

/-- Guest linear memory: the byte contents of the module's exported
memory region, as mediated by the interpreter. -/
structure Memory where
  data : Bytes
deriving DecidableEq

/-- Error of an out-of-range linear-memory access (wasmi returns an
`Err` from `MemoryInstance::set` / `get` in that case). -/
inductive MemErr where
  | outOfBounds : MemErr
deriving DecidableEq

/-- Write `bs` into memory starting at `ptr`; fails (without touching
any memory) when the region `ptr .. ptr + bs.length` is not entirely
inside the allocated region.  Mirrors `MemoryInstance::set`. -/
def Memory.set (m : Memory) (ptr : Nat) (bs : Bytes) : Except MemErr Memory :=
  if ptr + bs.length ≤ m.data.length then
    .ok ⟨m.data.take ptr ++ bs ++ m.data.drop (ptr + bs.length)⟩
  else .error .outOfBounds

/-- Read `len` bytes starting at `ptr`; fails when the region is not
entirely inside the allocated region.  Mirrors `MemoryInstance::get` /
`get_into`. -/
def Memory.get (m : Memory) (ptr len : Nat) : Except MemErr Bytes :=
  if ptr + len ≤ m.data.length then .ok ((m.data.drop ptr).take len)
  else .error .outOfBounds

/-- The host-call runtime state, from `struct Runtime` in `src/main.rs`. -/
structure Runtime where
  memory : Memory
  pre_state : Bytes32
  block_data : Bytes
  post_state : Bytes32
deriving DecidableEq

/-- One step of observable guest behaviour: either an invocation of an
imported host function (by function index, with its `u32` arguments), or
a write by the guest into its own linear memory. -/
inductive GAction where
  | hostCall : Nat → List Nat → GAction
  | guestWrite : Nat → Bytes → GAction
deriving DecidableEq

/-- A decoded guest module: the initial contents of its exported
`memory`, and the sequence of actions its `main` entry point performs. -/
structure GuestProgram where
  initMem : Bytes
  actions : List GAction
deriving DecidableEq

/-- The external wasm engine's module decoder: `Module::from_buffer`
composed with instantiation and export lookup.  `none` models any of the
decode/instantiation/export failures, all of which the source `unwrap`s
or `expect`s into a panic. -/
abbrev Decode := Bytes → Option GuestProgram

/-- Outcome of `execute_code`: a normal return carrying the final
post-state root, a Rust panic, or exhaustion of the modelling fuel that
bounds nested-execution depth (the source itself has no such bound). -/
inductive ExecOutcome where
  | done : Bytes32 → ExecOutcome
  | panic : ExecOutcome
  | outOfFuel : ExecOutcome
deriving DecidableEq

/-- Abnormal termination while running the guest's actions. -/
inductive GAbort where
  | panic : GAbort
  | outOfFuel : GAbort
deriving DecidableEq

/-- Result of one host call, mirroring the Rust type
`Result<Option<RuntimeValue>, Trap>` together with the possibility of a
panic.  `ok` carries the value returned to the guest and the updated
runtime; `trap` mirrors the `Err(Trap)` case of the Rust result type. -/
inductive HostOut where
  | ok : Option Int → Runtime → HostOut
  | trap : HostOut
  | panic : HostOut
  | outOfFuel : HostOut
deriving DecidableEq

/-- Whether a host-call outcome is a wasm trap. -/
def HostOut.saysTrap : HostOut → Bool
  | .trap => true
  | _ => false

/-- Whether an action is an invocation of the save-post-state-root host
call (function index 3). -/
def GAction.saves : GAction → Bool
  | .hostCall i _ => i == 3
  | _ => false

def LOADPRESTATEROOT_FUNC_INDEX : Nat := 0
def BLOCKDATASIZE_FUNC_INDEX : Nat := 1
def BLOCKDATACOPY_FUNC_INDEX : Nat := 2
def SAVEPOSTSTATEROOT_FUNC_INDEX : Nat := 3
def PUSHNEWDEPOSIT_FUNC_INDEX : Nat := 4
def EXECCODE_FUNC_INDEX : Nat := 5

/-- Conversion `usize as i32` (truncating cast, then signed reading). -/
def toI32 (n : Nat) : Int :=
  if n % 2 ^ 32 < 2 ^ 31 then ((n % 2 ^ 32 : Nat) : Int)
  else ((n % 2 ^ 32 : Nat) : Int) - 2 ^ 32

/-- `Runtime::invoke_index` from `src/main.rs`, parameterised by the
nested-execution semantics `nested` (what `execute_code` does on a code
blob and a pre-state root; the nested block payload is fixed empty by
the caller).  Every `unwrap`/`unimplemented!`/slice panic of the source
is the `panic` outcome. -/
def invokeIndexO (nested : Bytes → Bytes32 → ExecOutcome) (index : Nat)
    (args : List Nat) (rt : Runtime) : HostOut :=
  if index = LOADPRESTATEROOT_FUNC_INDEX then
    let ptr := args.getD 0 0
    match rt.memory.set ptr rt.pre_state.bytes with
    | .error _ => .panic
    | .ok m => .ok none { rt with memory := m }
  else if index = SAVEPOSTSTATEROOT_FUNC_INDEX then
    let ptr := args.getD 0 0
    match rt.memory.get ptr 32 with
    | .error _ => .panic
    | .ok bs => .ok none { rt with post_state := ⟨bs⟩ }
  else if index = BLOCKDATASIZE_FUNC_INDEX then
    .ok (some (toI32 rt.block_data.length)) rt
  else if index = BLOCKDATACOPY_FUNC_INDEX then
    let ptr := args.getD 0 0
    let offset := args.getD 1 0
    let length := args.getD 2 0
    if offset ≤ length ∧ length ≤ rt.block_data.length then
      match rt.memory.set ptr ((rt.block_data.drop offset).take (length - offset)) with
      | .error _ => .panic
      | .ok m => .ok none { rt with memory := m }
    else .panic
  else if index = PUSHNEWDEPOSIT_FUNC_INDEX then
    .panic
  else if index = EXECCODE_FUNC_INDEX then
    let ptr := args.getD 0 0
    let length := args.getD 1 0
    match rt.memory.get ptr length with
    | .error _ => .panic
    | .ok code =>
      match nested code rt.pre_state with
      | .done _ => .ok none rt
      | .panic => .panic
      | .outOfFuel => .outOfFuel
  else .panic

/-- Run the guest's action sequence against the runtime, mirroring
`invoke_export("main", ...)`: a guest trap or a host-call failure makes
the whole invocation abort (the source then panics through
`.expect("Executed 'main'")`). -/
def runActionsO (nested : Bytes → Bytes32 → ExecOutcome) :
    List GAction → Runtime → Except GAbort Runtime
  | [], rt => .ok rt
  | .guestWrite ptr bs :: rest, rt =>
    match rt.memory.set ptr bs with
    | .error _ => .error .panic
    | .ok m => runActionsO nested rest { rt with memory := m }
  | .hostCall idx args :: rest, rt =>
    match invokeIndexO nested idx args rt with
    | .ok _ rt2 => runActionsO nested rest rt2
    | .trap => .error .panic
    | .panic => .error .panic
    | .outOfFuel => .error .outOfFuel

/-- The runtime as set up by `Runtime::new` followed by binding the
module's exported memory, as done in `execute_code`. -/
def initRuntime (prog : GuestProgram) (pre : Bytes32) (bd : Bytes) : Runtime :=
  { memory := ⟨prog.initMem⟩, pre_state := pre, block_data := bd,
    post_state := Bytes32.default }

/-- `execute_code` from `src/main.rs`, with a `fuel` bound on the depth
of nested execution (the source is unboundedly recursive; `outOfFuel`
marks an execution whose nesting depth exceeds `fuel`). -/
def executeCodeFuel (dec : Decode) (fuel : Nat) (code : Bytes)
    (pre : Bytes32) (bd : Bytes) : ExecOutcome :=
  match fuel with
  | 0 => .outOfFuel
  | f + 1 =>
    match dec code with
    | none => .panic
    | some prog =>
      match runActionsO (fun c p => executeCodeFuel dec f c p []) prog.actions
          (initRuntime prog pre bd) with
      | .error .panic => .panic
      | .error .outOfFuel => .outOfFuel
      | .ok rt => .done rt.post_state

/-- The nested-execution semantics used by the `EXECCODE` host call:
`execute_code` on the read code blob, the current pre-state root, and an
empty block payload. -/
def nestedExec (dec : Decode) (fuel : Nat) : Bytes → Bytes32 → ExecOutcome :=
  fun code pre => executeCodeFuel dec fuel code pre []

/-- `ExecutionScript` from `src/main.rs`. -/
structure ExecutionScript where
  code : Bytes
deriving DecidableEq

/-- `BeaconState` from `src/main.rs`. -/
structure BeaconState where
  execution_scripts : List ExecutionScript
deriving DecidableEq

/-- `ShardBlockHeader` from `src/main.rs` (an empty struct). -/
inductive ShardBlockHeader where
  | mk : ShardBlockHeader
deriving DecidableEq

/-- `ShardBlock` from `src/main.rs` (its `data` field is the byte body). -/
structure ShardBlock where
  env : Nat
  data : Bytes
deriving DecidableEq

/-- `ShardState` from `src/main.rs`. -/
structure ShardState where
  exec_env_states : List Bytes32
  slot : Nat
  parent_block : ShardBlockHeader
deriving DecidableEq

/-- `process_shard_block` from `src/main.rs`.  `none` as a result models
a Rust panic (out-of-range `Vec` indexing, or a panic inside
`execute_code`) or fuel exhaustion in the model. -/
def process_shard_block (dec : Decode) (fuel : Nat) (state : ShardState)
    (beacon_state : BeaconState) (block : Option ShardBlock) : Option ShardState :=
  match block with
  | none => some state
  | some block =>
    match beacon_state.execution_scripts.get? block.env with
    | none => none
    | some script =>
      match state.exec_env_states.get? block.env with
      | none => none
      | some pre =>
        match executeCodeFuel dec fuel script.code pre block.data with
        | .done post =>
          some { state with exec_env_states := state.exec_env_states.set block.env post }
        | .panic => none
        | .outOfFuel => none

/-!
The partial Merkle tree engine.  The `merkle_partial` crate is not part
of this repository's source; the definitions below are modelled from the
spec (sections 3, 4.1 and 4.2) for the one schema the driver uses: the
`State` container of `scripts/bazaar_partials/src/lib.rs`, a
length-bounded list of up to 8 `Message` records, each record two chunks
(an 8-byte little-endian `timestamp` and a 32-byte `message` vector).
Generalized indices follow the spec: the root is index 1, the children
of `i` are `2*i` and `2*i+1`.  The data subtree root is index 2 (depth 4
over 16 leaf chunks, indices 32..47: record `i` has its `timestamp` at
`32 + 2*i` and its `message` at `33 + 2*i`), and the mixed-in length
scalar is index 3.
-/

/-- Modelled from the spec: the sparse cache mapping generalized index
to 32-byte chunk.  A later insertion for the same index shadows an
earlier one. -/
abbrev Cache := List (Nat × Bytes)

/-- Modelled from the spec: cache lookup. -/
def lookupC : Cache → Nat → Option Bytes
  | [], _ => none
  | (j, v) :: rest, i => if j = i then some v else lookupC rest i

/-- Modelled from the spec: cache insertion (shadowing). -/
def insertC (c : Cache) (i : Nat) (v : Bytes) : Cache := (i, v) :: c

/-- Modelled from the spec: `SerializedPartial` — the ordered indices
and the concatenated 32-byte chunks, one per index, in the same order. -/
structure SerializedPartialTree where
  indices : List Nat
  chunks : Bytes
deriving DecidableEq

/-- Modelled from the spec: the cache holding exactly the supplied
(index, chunk) pairs. -/
def baseCache : List Nat → Bytes → Cache
  | [], _ => []
  | i :: is, bs => (i, bs.take 32) :: baseCache is (bs.drop 32)

/-- Modelled from the spec: derive the node at `i` from its two
children when it was not directly supplied and both children are
present. -/
def combineAt (combine : Bytes → Bytes → Bytes) (c : Cache) (i : Nat) : Cache :=
  match lookupC c i with
  | some _ => c
  | none =>
    match lookupC c (2 * i), lookupC c (2 * i + 1) with
    | some l, some r => insertC c i (combine l r)
    | _, _ => c

/-- Modelled from the spec: `fill` — populate the cache from the
serialized partial, then derive every derivable internal node of the
fixed-shape tree bottom-up (internal indices 31 down to 1). -/
def fill (combine : Bytes → Bytes → Bytes) (sp : SerializedPartialTree) : Cache :=
  ((List.range' 1 31).reverse).foldl (combineAt combine) (baseCache sp.indices sp.chunks)

/-- Modelled from the spec: one step of a symbolic path. -/
inductive TreePath where
  | ident : String → TreePath
  | index : Nat → TreePath
deriving DecidableEq

/-- Modelled from the spec: the typed failures of the partial tree
engine (section 7). -/
inductive PTError where
  | unknownPath : PTError
  | indexOutOfRange : PTError
  | missingChunk : PTError
  | missingSibling : PTError
deriving DecidableEq

/-- Modelled from the spec: pure path resolution for the `State` schema
to a (generalized index, in-chunk byte offset, byte length) triple.
Rejects paths not matching the schema (`unknownPath`) and list indices
beyond the declared capacity (`indexOutOfRange`). -/
def resolvePath : List TreePath → Except PTError (Nat × Nat × Nat)
  | [.ident m, .ident l] =>
    if m = "messages" ∧ l = "len" then .ok (3, 0, 32) else .error .unknownPath
  | [.ident m, .index i, .ident f] =>
    if m = "messages" ∧ f = "timestamp" then
      if i < 8 then .ok (32 + 2 * i, 0, 8) else .error .indexOutOfRange
    else .error .unknownPath
  | [.ident m, .index i, .ident f, .index j] =>
    if m = "messages" ∧ f = "message" then
      if i < 8 then
        if j < 32 then .ok (33 + 2 * i, j, 1) else .error .indexOutOfRange
      else .error .indexOutOfRange
    else .error .unknownPath
  | _ => .error .unknownPath

/-- Modelled from the spec: zero-extend a chunk to exactly 32 bytes. -/
def padTo32 (bs : Bytes) : Bytes := (bs ++ List.replicate 32 0).take 32

/-- Modelled from the spec: overwrite the bytes at `off` of a chunk. -/
def writeAt (chunk : Bytes) (off : Nat) (bs : Bytes) : Bytes :=
  chunk.take off ++ bs ++ chunk.drop (off + bs.length)

/-- Modelled from the spec: the proper ancestors of a generalized
index, from its parent up to the root. -/
def ancestors (i : Nat) : List Nat :=
  if i ≤ 1 then []
  else (i / 2) :: ancestors (i / 2)
termination_by i
decreasing_by
  exact Nat.div_lt_self (by omega) (by omega)

/-- Modelled from the spec: the in-flight partial tree — the cache plus
the dirty marker set. -/
structure PartialTree where
  cache : Cache
  dirty : List Nat
deriving DecidableEq

/-- Modelled from the spec: `set_bytes` — resolve the path, overwrite
the addressed bytes in the cached chunk (the source always supplies a
payload of exactly the addressed length), and mark every ancestor of
the target dirty.  Fails with `missingChunk` when the target chunk was
never filled. -/
def setBytes (pt : PartialTree) (path : List TreePath) (bs : Bytes) :
    Except PTError PartialTree :=
  match resolvePath path with
  | .error e => .error e
  | .ok (idx, off, _len) =>
    match lookupC pt.cache idx with
    | none => .error .missingChunk
    | some chunk =>
      .ok { cache := insertC pt.cache idx (writeAt (padTo32 chunk) off bs),
            dirty := ancestors idx ++ pt.dirty }

/-- Insert into a descending-sorted list of indices. -/
def insertDesc (i : Nat) : List Nat → List Nat
  | [] => [i]
  | j :: rest => if j ≤ i then i :: j :: rest else j :: insertDesc i rest

/-- Sort indices in descending order (deepest node first). -/
def sortDesc : List Nat → List Nat
  | [] => []
  | i :: rest => insertDesc i (sortDesc rest)

/-- Drop duplicate indices (keeping the last occurrence). -/
def dedupNat : List Nat → List Nat
  | [] => []
  | i :: rest => if i ∈ rest then dedupNat rest else i :: dedupNat rest

/-- Modelled from the spec: recompute one dirty node from its two
children; fails with `missingSibling` when a child is neither supplied
nor derivable. -/
def refreshNode (combine : Bytes → Bytes → Bytes) (c : Cache) (i : Nat) :
    Except PTError Cache :=
  match lookupC c (2 * i), lookupC c (2 * i + 1) with
  | some l, some r => .ok (insertC c i (combine l r))
  | _, _ => .error .missingSibling

/-- Modelled from the spec: `refresh` — recompute every dirty node
bottom-up (highest index, i.e. deepest, first), then clear the dirty
set. -/
def refresh (combine : Bytes → Bytes → Bytes) (pt : PartialTree) :
    Except PTError PartialTree := do
  let c ← (sortDesc (dedupNat pt.dirty)).foldlM (refreshNode combine) pt.cache
  .ok { cache := c, dirty := [] }

/-!
The state-transition driver `process_block` from
`scripts/bazaar_partials/src/lib.rs`.  Decoding the SSZ block bytes into
an `InputBlock` is the external record codec (spec section 6); the
driver is modelled on the already-decoded block.  Every
`assert_eq!`/`unwrap`/`expect` of the source is an explicit `panic`
result.
-/

/-- `Message` from `scripts/bazaar_partials/src/lib.rs` (its `message`
field is a 32-byte fixed vector, SSZ-encoded as exactly its bytes). -/
structure Message where
  timestamp : Nat
  message : Bytes
deriving DecidableEq

/-- `InputBlock` from `scripts/bazaar_partials/src/lib.rs`. -/
structure InputBlock where
  new_messages : List Message
  state : SerializedPartialTree
deriving DecidableEq

/-- SSZ encoding of a `u64`: 8 little-endian bytes. -/
def u64LE (t : Nat) : Bytes := (List.range 8).map (fun k => t / 256 ^ k % 256)

/-- The path of record `i`'s timestamp field. -/
def timestampPath (i : Nat) : List TreePath :=
  [.ident "messages", .index i, .ident "timestamp"]

/-- The path of byte `j` of record `i`'s message field. -/
def messageBytePath (i j : Nat) : List TreePath :=
  [.ident "messages", .index i, .ident "message", .index j]

/-- The path of the list container's length field. -/
def lenPath : List TreePath := [.ident "messages", .ident "len"]

/-- The 32-byte value the driver writes into the length field:
`vec![0; 32]` with byte 0 set to the count cast to `u8`. -/
def lenBytes (n : Nat) : Bytes := (n % 256) :: List.replicate 31 0

/-- The per-record edits of `process_block`: the 8-byte timestamp, then
each of the 32 message bytes, addressed by nested path. -/
def setMsgBytes (pt : PartialTree) (i : Nat) (msg : Message) :
    Except PTError PartialTree := do
  let pt1 ← setBytes pt (timestampPath i) (u64LE msg.timestamp)
  (List.range 32).foldlM
    (fun pt2 j => setBytes pt2 (messageBytePath i j) [msg.message.getD j 0]) pt1

/-- All per-record edits, in block order. -/
def applyMessages (pt : PartialTree) (msgs : List Message) :
    Except PTError PartialTree :=
  msgs.enum.foldlM (fun pt p => setMsgBytes pt p.1 p.2) pt

/-- The tree state after `fill`, all per-record edits, and the length
write — i.e. everything `process_block` does before calling `refresh`. -/
def editsApplied (combine : Bytes → Bytes → Bytes) (block : InputBlock) :
    Except PTError PartialTree := do
  let pt0 : PartialTree := { cache := fill combine block.state, dirty := [] }
  let pt1 ← applyMessages pt0 block.new_messages
  setBytes pt1 lenPath (lenBytes block.new_messages.length)

/-- Result of `process_block`: the returned post-state root, or a Rust
panic (the source has no error channel: its failures are `assert_eq!`
and `unwrap` panics). -/
inductive PBResult where
  | ok : Bytes32 → PBResult
  | panic : PBResult
deriving DecidableEq

/-- `process_block` from `scripts/bazaar_partials/src/lib.rs`: fill the
partial tree, assert the computed root equals the supplied pre-state
root, apply the edits and the length write, refresh, and return the new
root. -/
def process_block (combine : Bytes → Bytes → Bytes) (block : InputBlock)
    (pre_state_root : Bytes32) : PBResult :=
  match lookupC (fill combine block.state) 1 with
  | none => .panic
  | some r =>
    if r = pre_state_root.bytes then
      match editsApplied combine block with
      | .error _ => .panic
      | .ok pt2 =>
        match refresh combine pt2 with
        | .error _ => .panic
        | .ok pt3 =>
          match lookupC pt3.cache 1 with
          | none => .panic
          | some root =>
            if 32 ≤ root.length then .ok ⟨root.take 32⟩ else .panic
    else .panic

/-!
Concrete instances used to exhibit behaviours and to discharge the
hypotheses of the general theorems.
-/

/-- A concrete combine function standing in for the external hash
primitive (any function of the right type works for the statements that
quantify over `combine`). -/
def cmb0 : Bytes → Bytes → Bytes :=
  fun l r => List.replicate 32 ((l.headD 0 + r.headD 0 + 1) % 256)

/-- A block whose partial tree supplies the root chunk directly: 32
bytes of value 9, so the computed root differs from a zero pre-root. -/
def c1Block : InputBlock :=
  { new_messages := [],
    state := { indices := [1], chunks := List.replicate 32 9 } }

/-- The all-zero pre-state root. -/
def zeroRoot : Bytes32 := ⟨List.replicate 32 0⟩

/-- One message record: timestamp 1, message bytes all 7. -/
def c4Msg : Message := { timestamp := 1, message := List.replicate 32 7 }

/-- A block appending one record to a state whose supplied length chunk
(index 3) records a prior length of 5. -/
def c4Block : InputBlock :=
  { new_messages := [c4Msg],
    state := { indices := [3, 32, 33],
               chunks := (5 :: List.replicate 31 0) ++ List.replicate 32 0 ++
                 List.replicate 32 0 } }

/-- The length chunk of the tree after all edits and the length write,
just before `refresh`. -/
def c4LenChunk : Option Bytes :=
  match editsApplied cmb0 c4Block with
  | .ok pt => lookupC pt.cache 3
  | .error _ => none

/-- The tree state of the `c4Block` transition just before `refresh`. -/
def c4PT : PartialTree :=
  match editsApplied cmb0 c4Block with
  | .ok pt => pt
  | .error _ => ⟨[], []⟩

/-- A trivial nested-execution semantics (the host calls below never
reach it). -/
def nested0 : Bytes → Bytes32 → ExecOutcome := fun _ _ => .panic

/-- A runtime whose guest exported a 64-byte memory. -/
def rtC2 : Runtime :=
  ⟨⟨List.replicate 64 0⟩, ⟨List.replicate 32 1⟩, [10, 11, 12, 13, 14], Bytes32.default⟩

/-- A runtime with a 4-byte guest memory and the 5-byte block payload
`[10, 11, 12, 13, 14]`. -/
def rtC3 : Runtime :=
  ⟨⟨List.replicate 4 0⟩, Bytes32.default, [10, 11, 12, 13, 14], Bytes32.default⟩

/-- A guest that overwrites its memory with 32 bytes of value 5 and
saves them as the post-state root. -/
def prog6 : GuestProgram :=
  { initMem := List.replicate 32 0,
    actions := [.guestWrite 0 (List.replicate 32 5), .hostCall 3 [0]] }

/-- Decoder mapping the code blob `[3]` to `prog6`. -/
def dec6 : Decode := fun bs => if bs = [3] then some prog6 else none

/-- A calling-guest runtime whose memory holds the code blob `[3]`. -/
def rt6 : Runtime := ⟨⟨[3]⟩, ⟨List.replicate 32 1⟩, [9, 9], Bytes32.default⟩

/-- A guest that invokes the save-post-state-root host call twice: first
reading from offset 0, then from offset 4 (the last save reads 32 bytes
of value 7). -/
def prog8 : GuestProgram :=
  { initMem := List.replicate 4 9 ++ List.replicate 32 7 ++ List.replicate 28 0,
    actions := [.hostCall 3 [0], .hostCall 3 [4]] }

/-- Decoder mapping the code blob `[0]` to `prog8`. -/
def dec8 : Decode := fun bs => if bs = [0] then some prog8 else none

/-- The runtime of the `prog8` execution after the first save call. -/
def rtm8 : Runtime :=
  { memory := ⟨prog8.initMem⟩, pre_state := Bytes32.default, block_data := [],
    post_state := ⟨List.replicate 4 9 ++ List.replicate 28 7⟩ }

/-- The post-state root produced by executing `prog8`. -/
def c8root : Bytes32 :=
  match executeCodeFuel dec8 1 [0] Bytes32.default [] with
  | .done r => r
  | _ => ⟨List.replicate 32 9⟩

/-- A guest that queries the block-data size and loads the pre-state
root, but never saves a post-state root. -/
def prog9 : GuestProgram :=
  { initMem := List.replicate 64 0,
    actions := [.hostCall 1 [], .hostCall 0 [0]] }

/-- Decoder mapping the code blob `[1]` to `prog9`. -/
def dec9 : Decode := fun bs => if bs = [1] then some prog9 else none

/-- The post-state root produced by executing `prog9` (fallback value
chosen distinct from the all-zero root). -/
def c9root : Bytes32 :=
  match executeCodeFuel dec9 1 [1] ⟨List.replicate 32 2⟩ [5, 6] with
  | .done r => r
  | _ => ⟨List.replicate 32 9⟩

/-- Decoder mapping the code blob `[2]` to a guest that does nothing. -/
def dec10 : Decode :=
  fun bs => if bs = [2] then some ⟨List.replicate 32 0, []⟩ else none

/-- A beacon state with two execution scripts. -/
def beacon10 : BeaconState := ⟨[⟨[2]⟩, ⟨[2]⟩]⟩

/-- A shard state with two per-environment states and slot 7. -/
def st10 : ShardState := ⟨[⟨List.replicate 32 3⟩, ⟨List.replicate 32 4⟩], 7, .mk⟩

/-- A shard block for execution environment 0. -/
def b10 : ShardBlock := ⟨0, [1]⟩

/-- The shard state after processing `b10`. -/
def st10N : ShardState :=
  match process_shard_block dec10 1 st10 beacon10 (some b10) with
  | some s => s
  | none => st10

/-- A guest whose memory holds its own one-byte code blob and whose
`main` immediately invokes nested execution on it. -/
def selfProg : GuestProgram := { initMem := [7], actions := [.hostCall 5 [0, 1]] }

/-- Decoder mapping the code blob `[7]` to the self-invoking guest. -/
def selfDec : Decode := fun bs => if bs = [7] then some selfProg else none

/-!
Helper lemmas about the execution host.
-/

/-- Unfolding equation of `runActionsO` on a guest memory write. -/
theorem runActionsO_cons_write (nested : Bytes → Bytes32 → ExecOutcome)
    (p : Nat) (bs : Bytes) (rest : List GAction) (rt : Runtime) :
    runActionsO nested (.guestWrite p bs :: rest) rt =
      match rt.memory.set p bs with
      | .error _ => .error .panic
      | .ok m => runActionsO nested rest { rt with memory := m } := rfl

/-- Unfolding equation of `runActionsO` on a host call. -/
theorem runActionsO_cons_call (nested : Bytes → Bytes32 → ExecOutcome)
    (idx : Nat) (args : List Nat) (rest : List GAction) (rt : Runtime) :
    runActionsO nested (.hostCall idx args :: rest) rt =
      match invokeIndexO nested idx args rt with
      | .ok _ rt2 => runActionsO nested rest rt2
      | .trap => .error .panic
      | .panic => .error .panic
      | .outOfFuel => .error .outOfFuel := rfl

/-- A host call other than save-post-state-root never changes the
stored post-state root. -/
theorem invokeIndexO_post_state (nested : Bytes → Bytes32 → ExecOutcome)
    (idx : Nat) (args : List Nat) (rt : Runtime) (v : Option Int) (rt2 : Runtime)
    (h : invokeIndexO nested idx args rt = .ok v rt2) (hidx : idx ≠ 3) :
    rt2.post_state = rt.post_state := by
  unfold invokeIndexO at h
  dsimp only at h
  split at h
  · split at h
    · simp at h
    · cases h; rfl
  · split at h
    · simp_all [SAVEPOSTSTATEROOT_FUNC_INDEX]
    · split at h
      · cases h; rfl
      · split at h
        · split at h
          · split at h
            · simp at h
            · cases h; rfl
          · simp at h
        · split at h
          · simp at h
          · split at h
            · split at h
              · simp at h
              · split at h
                · cases h; rfl
                · simp at h
                · simp at h
            · simp at h

/-- A run containing no save-post-state-root call leaves the stored
post-state root unchanged. -/
theorem runActionsO_no_save (nested : Bytes → Bytes32 → ExecOutcome)
    (acts : List GAction) (rt rt' : Runtime)
    (h : runActionsO nested acts rt = .ok rt')
    (hns : acts.all (fun a => ! a.saves) = true) :
    rt'.post_state = rt.post_state := by
  induction acts generalizing rt with
  | nil => cases h; rfl
  | cons a rest ih =>
    simp only [List.all_cons, Bool.and_eq_true] at hns
    cases a with
    | guestWrite ptr bs =>
      rw [runActionsO_cons_write] at h
      split at h
      · simp at h
      · have h2 := ih _ h hns.2
        exact h2
    | hostCall idx args =>
      rw [runActionsO_cons_call] at h
      have hidx : idx ≠ 3 := by
        simpa [GAction.saves] using hns.1
      split at h
      case h_1 v rt2 heq =>
        rw [ih rt2 h hns.2]
        exact invokeIndexO_post_state nested idx args rt v rt2 heq hidx
      · simp at h
      · simp at h
      · simp at h

/-- A successful prefix of a run composes with the remaining actions. -/
theorem runActionsO_append_ok (nested : Bytes → Bytes32 → ExecOutcome)
    (xs ys : List GAction) (rt r : Runtime)
    (h : runActionsO nested xs rt = .ok r) :
    runActionsO nested (xs ++ ys) rt = runActionsO nested ys r := by
  induction xs generalizing rt with
  | nil => cases h; rfl
  | cons a rest ih =>
    cases a with
    | guestWrite p bs =>
      rw [runActionsO_cons_write] at h
      refine (runActionsO_cons_write nested p bs (rest ++ ys) rt).trans ?_
      cases hset : rt.memory.set p bs with
      | error e => simp [hset] at h
      | ok m =>
        simp only [hset] at h ⊢
        exact ih _ h
    | hostCall idx args =>
      rw [runActionsO_cons_call] at h
      refine (runActionsO_cons_call nested idx args (rest ++ ys) rt).trans ?_
      cases hinv : invokeIndexO nested idx args rt with
      | ok v rt2 =>
        simp only [hinv] at h ⊢
        exact ih _ h
      | trap => simp [hinv] at h
      | panic => simp [hinv] at h
      | outOfFuel => simp [hinv] at h

/-- Looking up the index just inserted returns the inserted chunk. -/
theorem lookupC_insertC (c : Cache) (i : Nat) (v : Bytes) :
    lookupC (insertC c i v) i = some v := by
  simp [insertC, lookupC]

/-- The driver's length value is exactly 32 bytes long. -/
theorem lenBytes_length (n : Nat) : (lenBytes n).length = 32 := by
  simp [lenBytes]

/-- Writing a full 32-byte payload at offset 0 replaces the (padded)
chunk entirely. -/
theorem writeAt_pad_zero (c bs : Bytes) (hbs : bs.length = 32) :
    writeAt (padTo32 c) 0 bs = bs := by
  unfold writeAt
  simp only [List.take_zero, List.nil_append, Nat.zero_add]
  have hd : (padTo32 c).drop bs.length = [] := by
    apply List.drop_eq_nil_of_le
    simp [padTo32, hbs]
  rw [hd, List.append_nil]

/-!
The claims.
-/

/-- Claim C1: when the root computed after filling the partial tree from
the block's state differs from the supplied pre-state root,
`process_block` aborts by a Rust panic (`assert_eq!`).  The result type
of the embedded `process_block` has no error channel at all: there is no
typed `PreStateMismatch` failure, contrary to the claim — on a mismatch
the process panics. -/
theorem c1_pre_state_mismatch_panics (combine : Bytes → Bytes → Bytes)
    (block : InputBlock) (pre : Bytes32) (r : Bytes)
    (h1 : lookupC (fill combine block.state) 1 = some r)
    (h2 : (r == pre.bytes) = false) :
    process_block combine block pre = .panic := by
  unfold process_block
  rw [h1]
  dsimp only
  have hne : ¬ (r = pre.bytes) := by simpa using h2
  simp [hne]

/-- Claim C1, witness: a concrete block whose filled tree has root
`[9, ..., 9]` run against the all-zero pre-state root panics. -/
theorem c1_pre_state_mismatch_witness :
    process_block cmb0 c1Block zeroRoot = .panic :=
  c1_pre_state_mismatch_panics cmb0 c1Block zeroRoot (List.replicate 32 9)
    (by decide) (by decide)

/-- Claim C2: host-call memory accesses are not bounds-checked into a
trap; on an out-of-bounds request the host panics (`unwrap` on the
interpreter's error), and no invocation ever produces the `Err(Trap)`
case of the host-call result type.  The four concrete invocations are
the pre-state-root write, the post-state-root read, the block-data
copy, and the nested-exec code read, each past the guest's 64-byte
memory. -/
theorem c2_oob_hostcalls_panic_not_trap :
    invokeIndexO nested0 0 [60] rtC2 = .panic ∧
    invokeIndexO nested0 3 [60] rtC2 = .panic ∧
    invokeIndexO nested0 2 [60, 0, 5] rtC2 = .panic ∧
    invokeIndexO nested0 5 [60, 10] rtC2 = .panic ∧
    ∀ (n : Bytes → Bytes32 → ExecOutcome) (i : Nat) (a : List Nat) (rt : Runtime),
      (invokeIndexO n i a rt).saysTrap = false := by
  refine ⟨rfl, rfl, rfl, rfl, ?_⟩
  intro n i a rt
  unfold invokeIndexO
  dsimp only
  split
  · split <;> rfl
  · split
    · split <;> rfl
    · split
      · rfl
      · split
        · split
          · split <;> rfl
          · rfl
        · split
          · rfl
          · split
            · split
              · rfl
              · split <;> rfl
            · rfl

/-- Claim C3: the block-data-copy host call with (ptr 0, offset 2,
length 3) over the payload `[10, 11, 12, 13, 14]` writes the single
byte `12` (the source slices `data[offset..length]`, one byte here),
not the three bytes `[12, 13, 14]` = `data[offset..offset+length]` the
claim describes; and an offset greater than the length panics. -/
theorem c3_blockdatacopy_wrong_range :
    invokeIndexO nested0 2 [0, 2, 3] rtC3 =
      .ok none { rtC3 with memory := ⟨[12, 0, 0, 0]⟩ } ∧
    (([12, 0, 0, 0] == [12, 13, 14, 0]) = false) ∧
    invokeIndexO nested0 2 [0, 3, 2] rtC3 = .panic :=
  ⟨rfl, rfl, rfl⟩

/-- Claim C4, counterexample: for a block whose supplied partial tree
records a prior list length of 5 (first byte of the chunk at index 3)
and which appends 1 record, the length chunk written before `refresh`
is `lenBytes 1` (count of the block's records), not `lenBytes 6` (prior
length plus appended records) as the claim states. -/
theorem c4_counterexample :
    c4LenChunk = some (lenBytes 1) ∧
    lookupC (baseCache c4Block.state.indices c4Block.state.chunks) 3 =
      some (5 :: List.replicate 31 0) ∧
    ((lenBytes 1 == lenBytes (5 + 1)) = false) :=
  ⟨by decide, by decide, by decide⟩

/-- Claim C4, amended: after all per-record edits, the length chunk
(index 3) holds the 32-byte value whose first byte is the number of
records supplied in the block (`new_messages.len() as u8`) and whose
other bytes are zero, before `refresh` is called. -/
theorem c4_length_field_amended (combine : Bytes → Bytes → Bytes)
    (block : InputBlock) (pt : PartialTree)
    (h : editsApplied combine block = .ok pt) :
    lookupC pt.cache 3 = some (lenBytes block.new_messages.length) := by
  unfold editsApplied at h
  dsimp only at h
  cases hap : applyMessages { cache := fill combine block.state, dirty := [] }
      block.new_messages with
  | error e => rw [hap] at h; simp [Bind.bind, Except.bind] at h
  | ok pt1 =>
    rw [hap] at h
    simp only [Bind.bind, Except.bind] at h
    unfold setBytes at h
    rw [show resolvePath lenPath = .ok (3, 0, 32) from rfl] at h
    dsimp only at h
    cases hl : lookupC pt1.cache 3 with
    | none => rw [hl] at h; simp at h
    | some chunk =>
      rw [hl] at h
      dsimp only at h
      injection h with h2
      rw [← h2]
      dsimp only
      rw [lookupC_insertC]
      rw [writeAt_pad_zero _ _ (lenBytes_length _)]

/-- Claim C4, witness for the amended claim: the `c4Block` transition
reaches the pre-refresh state with length chunk `lenBytes 1`. -/
theorem c4_length_field_witness :
    lookupC c4PT.cache 3 = some (lenBytes 1) :=
  c4_length_field_amended cmb0 c4Block c4PT (by rfl)

/-- Claim C5: nested execution enforces no recursion cap.  For the
guest whose memory holds its own code blob and whose entry point
invokes nested execution on it, the nesting depth exceeds every finite
bound `fuel` (the run exhausts the modelling fuel for every value of
`fuel`), with no `RecursionLimitExceeded` failure — no such failure
exists in the host at all. -/
theorem c5_unbounded_recursion (fuel : Nat) (pre : Bytes32) :
    executeCodeFuel selfDec fuel [7] pre [] = .outOfFuel := by
  induction fuel generalizing pre with
  | zero => rfl
  | succ f ih =>
    simp only [executeCodeFuel]
    have hdec : selfDec [7] = some selfProg := rfl
    simp only [hdec]
    have hrun : runActionsO (fun c p => executeCodeFuel selfDec f c p [])
        selfProg.actions (initRuntime selfProg pre []) = .error .outOfFuel := by
      rw [show selfProg.actions = [.hostCall 5 [0, 1]] from rfl]
      rw [runActionsO_cons_call]
      have hinv : invokeIndexO (fun c p => executeCodeFuel selfDec f c p []) 5 [0, 1]
          (initRuntime selfProg pre []) = .outOfFuel := by
        unfold invokeIndexO
        norm_num [LOADPRESTATEROOT_FUNC_INDEX, SAVEPOSTSTATEROOT_FUNC_INDEX,
          BLOCKDATASIZE_FUNC_INDEX, BLOCKDATACOPY_FUNC_INDEX,
          PUSHNEWDEPOSIT_FUNC_INDEX, EXECCODE_FUNC_INDEX]
        simp only [show (initRuntime selfProg pre []).memory.get 0 1 = Except.ok [7] from rfl,
          show (initRuntime selfProg pre []).pre_state = pre from rfl, ih]
      rw [hinv]
    simp only [hrun]

/-- Claim C6, counterexample: the nested invocation of the code blob
`[3]` completes with post-state root `[5, ..., 5]`, yet the EXECCODE
host call returns `none` to the calling guest and leaves the calling
runtime unchanged — the nested post-state root is not returned to the
guest. -/
theorem c6_counterexample :
    nestedExec dec6 1 [3] rt6.pre_state = .done ⟨List.replicate 32 5⟩ ∧
    invokeIndexO (nestedExec dec6 1) 5 [0, 1] rt6 = .ok none rt6 :=
  ⟨rfl, rfl⟩

/-- Claim C6, amended: the nested-execution host call runs the code
blob read from guest memory at (ptr, length) in a fresh sandbox against
the current pre-state root with an empty block payload, and discards
the nested post-state root: the host call returns no value (`none`) to
the calling guest and leaves the calling runtime unchanged. -/
theorem c6_execcode_discards_root (dec : Decode) (f : Nat) (rt : Runtime)
    (ptr len : Nat) (code : Bytes) (root : Bytes32)
    (hget : rt.memory.get ptr len = .ok code)
    (hrun : nestedExec dec f code rt.pre_state = .done root) :
    invokeIndexO (nestedExec dec f) 5 [ptr, len] rt = .ok none rt ∧
    nestedExec dec f code rt.pre_state = executeCodeFuel dec f code rt.pre_state [] := by
  refine ⟨?_, rfl⟩
  unfold invokeIndexO
  norm_num [LOADPRESTATEROOT_FUNC_INDEX, SAVEPOSTSTATEROOT_FUNC_INDEX,
    BLOCKDATASIZE_FUNC_INDEX, BLOCKDATACOPY_FUNC_INDEX,
    PUSHNEWDEPOSIT_FUNC_INDEX, EXECCODE_FUNC_INDEX]
  rw [hget]
  dsimp only
  rw [hrun]

/-- Claim C6, witness for the amended claim, at the `dec6` scenario. -/
theorem c6_execcode_witness :
    invokeIndexO (nestedExec dec6 1) 5 [0, 1] rt6 = .ok none rt6 ∧
    nestedExec dec6 1 [3] rt6.pre_state =
      executeCodeFuel dec6 1 [3] rt6.pre_state [] :=
  c6_execcode_discards_root dec6 1 rt6 0 1 [3] ⟨List.replicate 32 5⟩
    (by rfl) (by rfl)

/-- Claim C7: every invocation of the push-new-deposit host call
(function index 4) panics (`unimplemented!` in the source); there is no
typed `Unsupported` result. -/
theorem c7_push_deposit_panics (n : Bytes → Bytes32 → ExecOutcome)
    (args : List Nat) (rt : Runtime) :
    invokeIndexO n 4 args rt = .panic := rfl

/-- Claim C8: when the guest's action sequence is a prefix, a
save-post-state-root call reading bytes `bs`, and a suffix containing
no further save call, a completed `execute_code` returns exactly `bs`
as the post-state root — the last save wins and earlier saved values
are not retained. -/
theorem c8_last_save_wins (dec : Decode) (f : Nat) (code : Bytes) (pre : Bytes32)
    (bd : Bytes) (prog : GuestProgram) (preA post : List GAction) (p : Nat)
    (rtm : Runtime) (bs : Bytes) (root : Bytes32)
    (hdec : dec code = some prog)
    (hacts : prog.actions = preA ++ .hostCall 3 [p] :: post)
    (hns : post.all (fun a => ! a.saves) = true)
    (hpre : runActionsO (nestedExec dec f) preA (initRuntime prog pre bd) = .ok rtm)
    (hread : rtm.memory.get p 32 = .ok bs)
    (hdone : executeCodeFuel dec (f + 1) code pre bd = .done root) :
    root = ⟨bs⟩ := by
  simp only [executeCodeFuel, hdec] at hdone
  have hnu : (fun c p => executeCodeFuel dec f c p []) = nestedExec dec f := rfl
  rw [hnu, hacts] at hdone
  rw [runActionsO_append_ok _ _ _ _ _ hpre] at hdone
  rw [runActionsO_cons_call] at hdone
  have hinv : invokeIndexO (nestedExec dec f) 3 [p] rtm =
      match rtm.memory.get p 32 with
      | .error _ => .panic
      | .ok bs2 => .ok none { rtm with post_state := ⟨bs2⟩ } := rfl
  rw [hinv] at hdone
  simp only [hread] at hdone
  cases hrun : runActionsO (nestedExec dec f) post { rtm with post_state := ⟨bs⟩ } with
  | error a => cases a <;> simp [hrun] at hdone
  | ok rt' =>
    simp only [hrun] at hdone
    have h3 : rt'.post_state = (⟨bs⟩ : Bytes32) :=
      runActionsO_no_save _ _ _ _ hrun hns
    injection hdone with h2
    rw [← h2]
    exact h3

/-- Claim C8, witness: `prog8` saves from offset 0, then from offset 4;
the returned post-state root is the 32 bytes of value 7 read by the
last save. -/
theorem c8_last_save_witness : c8root = ⟨List.replicate 32 7⟩ :=
  c8_last_save_wins dec8 0 [0] Bytes32.default [] prog8
    [.hostCall 3 [0]] [] 4 rtm8 (List.replicate 32 7) c8root
    (by rfl) (by rfl) (by rfl) (by rfl) (by rfl) (by rfl)

/-- Claim C9: a completed guest execution that never invokes the
save-post-state-root host call returns the all-zero 32-byte value (the
`Default` of `Bytes32`) as the post-state root, regardless of the
pre-state root and block payload. -/
theorem c9_no_save_default_root (dec : Decode) (f : Nat) (code : Bytes)
    (pre : Bytes32) (bd : Bytes) (prog : GuestProgram) (root : Bytes32)
    (hdec : dec code = some prog)
    (hns : prog.actions.all (fun a => ! a.saves) = true)
    (hdone : executeCodeFuel dec (f + 1) code pre bd = .done root) :
    root = Bytes32.default := by
  simp only [executeCodeFuel, hdec] at hdone
  cases hrun : runActionsO (fun c p => executeCodeFuel dec f c p [])
      prog.actions (initRuntime prog pre bd) with
  | error a => cases a <;> simp [hrun] at hdone
  | ok rt' =>
    simp only [hrun] at hdone
    have h3 : rt'.post_state = Bytes32.default :=
      runActionsO_no_save _ _ _ _ hrun hns
    injection hdone with h2
    rw [← h2]
    exact h3

/-- Claim C9, witness: `prog9` (no save call) run against a nonzero
pre-state root and a nonempty payload yields the all-zero root. -/
theorem c9_no_save_witness : c9root = Bytes32.default :=
  c9_no_save_default_root dec9 0 [1] ⟨List.replicate 32 2⟩ [5, 6] prog9 c9root
    (by rfl) (by rfl) (by rfl)

/-- Claim C10: a completed `process_shard_block` with `some block`
changes at most `exec_env_states[block.env]`: the slot, the parent
block header, the length of `exec_env_states`, and every other entry
are unchanged; and with `none` the state is returned unchanged. -/
theorem c10_frame (dec : Decode) (fuel : Nat) (st : ShardState) (bsn : BeaconState)
    (b : ShardBlock) (st' : ShardState)
    (h : process_shard_block dec fuel st bsn (some b) = some st') :
    process_shard_block dec fuel st bsn none = some st ∧
    st'.slot = st.slot ∧
    st'.parent_block = st.parent_block ∧
    st'.exec_env_states.length = st.exec_env_states.length ∧
    ∀ i, i ≠ b.env → st'.exec_env_states.get? i = st.exec_env_states.get? i := by
  refine ⟨rfl, ?_⟩
  unfold process_shard_block at h
  dsimp only at h
  cases hs : bsn.execution_scripts.get? b.env with
  | none => rw [hs] at h; simp at h
  | some script =>
    rw [hs] at h
    dsimp only at h
    cases hp : st.exec_env_states.get? b.env with
    | none => rw [hp] at h; simp at h
    | some pre =>
      rw [hp] at h
      dsimp only at h
      cases he : executeCodeFuel dec fuel script.code pre b.data with
      | done post =>
        rw [he] at h
        dsimp only at h
        injection h with h2
        subst h2
        refine ⟨rfl, rfl, by simp, ?_⟩
        intro i hi
        simp [List.get?_eq_getElem?, List.getElem?_set_ne (Ne.symm hi)]
      | panic => rw [he] at h; simp at h
      | outOfFuel => rw [he] at h; simp at h

/-- Claim C10, witness: processing `b10` (environment 0) leaves the
slot and the environment-1 entry of `st10` unchanged. -/
theorem c10_frame_witness :
    st10N.slot = st10.slot ∧
    st10N.exec_env_states.get? 1 = st10.exec_env_states.get? 1 := by
  have h := c10_frame dec10 1 st10 beacon10 b10 st10N (by rfl)
  exact ⟨h.2.1, h.2.2.2.2 1 (by decide)⟩

end Scout
